import Mathlib

/-!
Shallow embedding of the chat registry (`src/events/events.service.ts`) and the
message-fanout handlers of the gateway (`EventsGateway`), together with proofs
of the registry invariants and handler properties.

JavaScript `Map` objects are embedded as association lists with `Map`
semantics: `set` replaces the value at the first occurrence of the key
(keeping insertion order) or appends a new entry, `get` returns the value at
the first occurrence, `delete` removes the entry.
-/

namespace ChatApp

/-- Model of `Map.get`: value at the first occurrence of the key, if any. -/
def mapGet {V : Type} (m : List (String × V)) (k : String) : Option V :=
  match m with
  | [] => none
  | (k2, v) :: rest => if k2 = k then some v else mapGet rest k

/-- Model of `Map.has`. -/
def mapHas {V : Type} (m : List (String × V)) (k : String) : Bool :=
  (mapGet m k).isSome

/-- Model of `Map.set`: replace in place at the first occurrence, else append. -/
def mapSet {V : Type} (m : List (String × V)) (k : String) (v : V) :
    List (String × V) :=
  match m with
  | [] => [(k, v)]
  | (k2, v2) :: rest =>
    if k2 = k then (k2, v) :: rest else (k2, v2) :: mapSet rest k v

/-- Model of `Map.delete`: remove the entries with the given key. -/
def mapDelete {V : Type} (m : List (String × V)) (k : String) :
    List (String × V) :=
  m.filter (fun p => p.1 ≠ k)

/-- The `User` interface of events.service.ts. -/
structure User where
  clientId : String
  username : String
deriving DecidableEq, Repr

/-- The `ChatGroup` interface of events.service.ts. -/
structure ChatGroup where
  id : String
  name : String
  createdBy : String
  members : List String
deriving DecidableEq, Repr

/-- The four private maps of `EventsService`. -/
structure EventsService where
  users : List (String × String)
  userObjects : List (String × User)
  groups : List (String × ChatGroup)
  clientGroups : List (String × List String)
deriving DecidableEq, Repr

/-- The freshly-constructed service: all maps empty. -/
def initService : EventsService := ⟨[], [], [], []⟩

/-- Model of `EventsService.addUser`. -/
def addUser (s : EventsService) (clientId username : String) : EventsService :=
  { s with
    users := mapSet s.users clientId username
    userObjects := mapSet s.userObjects clientId ⟨clientId, username⟩
    clientGroups := mapSet s.clientGroups clientId [] }

/-- One step of the `userGroups.forEach` loop in `EventsService.removeUser`:
remove `clientId` from the members of the group `groupId`, if it exists. -/
def removeFromGroup (clientId : String) (gs : List (String × ChatGroup))
    (groupId : String) : List (String × ChatGroup) :=
  match mapGet gs groupId with
  | some group =>
      mapSet gs groupId
        { group with members := group.members.filter (fun id => id ≠ clientId) }
  | none => gs

/-- Model of `EventsService.removeUser`. -/
def removeUser (s : EventsService) (clientId : String) : EventsService :=
  let userGroups := (mapGet s.clientGroups clientId).getD []
  { users := mapDelete s.users clientId
    userObjects := mapDelete s.userObjects clientId
    groups := userGroups.foldl (removeFromGroup clientId) s.groups
    clientGroups := mapDelete s.clientGroups clientId }

/-- Model of `EventsService.getUser`. -/
def getUser (s : EventsService) (clientId : String) : Option String :=
  mapGet s.users clientId

/-- Model of `EventsService.getUserObject`. -/
def getUserObject (s : EventsService) (clientId : String) : Option User :=
  mapGet s.userObjects clientId

/-- Model of `EventsService.getAllUsers` (insertion order of the `users` map). -/
def getAllUsers (s : EventsService) : List String :=
  s.users.map (fun p => p.2)

/-- Model of `EventsService.getAllUserObjects`. -/
def getAllUserObjects (s : EventsService) : List User :=
  s.userObjects.map (fun p => p.2)

/-- Model of `EventsService.createGroup`; the `throw` is an `Except.error` carrying the
message. On success returns the new state and the returned group. -/
def createGroup (s : EventsService) (groupId groupName creatorClientId : String) :
    Except String (EventsService × ChatGroup) :=
  if mapHas s.groups groupId then
    .error ("Group with ID " ++ groupId ++ " already exists")
  else
    let group : ChatGroup := ⟨groupId, groupName, creatorClientId, [creatorClientId]⟩
    let creatorGroups := (mapGet s.clientGroups creatorClientId).getD []
    .ok
      ({ s with
          groups := mapSet s.groups groupId group
          clientGroups :=
            mapSet s.clientGroups creatorClientId (creatorGroups ++ [groupId]) },
        group)

/-- Model of `EventsService.joinGroup`; the `throw` is an `Except.error`. On success
returns the new state and the (possibly updated) group. -/
def joinGroup (s : EventsService) (groupId clientId : String) :
    Except String (EventsService × ChatGroup) :=
  match mapGet s.groups groupId with
  | none => .error ("Group with ID " ++ groupId ++ " not found")
  | some group =>
    if group.members.contains clientId then
      .ok (s, group)
    else
      let group2 := { group with members := group.members ++ [clientId] }
      let userGroups := (mapGet s.clientGroups clientId).getD []
      .ok
        ({ s with
            groups := mapSet s.groups groupId group2
            clientGroups := mapSet s.clientGroups clientId (userGroups ++ [groupId]) },
          group2)

/-- Model of `EventsService.leaveGroup`. -/
def leaveGroup (s : EventsService) (groupId clientId : String) : EventsService :=
  match mapGet s.groups groupId with
  | none => s
  | some group =>
    let newMembers := group.members.filter (fun id => id ≠ clientId)
    let groups :=
      if newMembers = [] then mapDelete s.groups groupId
      else mapSet s.groups groupId { group with members := newMembers }
    let userGroups := (mapGet s.clientGroups clientId).getD []
    { s with
      groups := groups
      clientGroups :=
        mapSet s.clientGroups clientId (userGroups.filter (fun id => id ≠ groupId)) }

/-- Model of `EventsService.getGroup`. -/
def getGroup (s : EventsService) (groupId : String) : Option ChatGroup :=
  mapGet s.groups groupId

/-- Model of `EventsService.getAllGroups`. -/
def getAllGroups (s : EventsService) : List ChatGroup :=
  s.groups.map (fun p => p.2)

/-- Model of `EventsService.getGroupMembers`: members mapped through `userObjects`,
entries without a stored `User` silently dropped. -/
def getGroupMembers (s : EventsService) (groupId : String) : List User :=
  match mapGet s.groups groupId with
  | none => []
  | some group => group.members.filterMap (fun clientId => mapGet s.userObjects clientId)

/-- Model of `EventsService.getUserGroups`. -/
def getUserGroups (s : EventsService) (clientId : String) : List ChatGroup :=
  ((mapGet s.clientGroups clientId).getD []).filterMap
    (fun groupId => mapGet s.groups groupId)

/-! ## Gateway fanout model

A handler's observable output is a list of deliveries; the payloads the
handlers of interest construct are the error shape `{message}`, the group
message shape `{groupId, message, sender, timestamp}` and the private message
shape `{message, sender, recipient, timestamp}`. -/

/-- Payload shapes built by `handleGroupMessage` / `handlePrivateMessage`. -/
inductive Payload where
  | errorMsg (message : String)
  | groupMsg (groupId message : String) (sender : User) (timestamp : String)
  | privateMsg (message : String) (sender recipient : User) (timestamp : String)
deriving DecidableEq, Repr

/-- A single outbound delivery: to a socket.io room, to one connection, or the
`WsResponse` acknowledgment back to the requester only. -/
inductive Delivery where
  | room (roomName event : String) (data : Payload)
  | direct (connId event : String) (data : Payload)
  | requesterOnly (event : String) (data : Payload)
deriving DecidableEq, Repr

/-- Model of `EventsGateway.handleGroupMessage`: read-only on the service, so the state
is returned unchanged alongside the deliveries.  The clock read
`new Date().toISOString()` is passed in as `timestamp`. -/
def handleGroupMessage (s : EventsService) (groupId message clientId timestamp : String) :
    EventsService × List Delivery :=
  match getUserObject s clientId with
  | none => (s, [.requesterOnly "error" (.errorMsg "User not found")])
  | some user =>
    match getGroup s groupId with
    | none => (s, [.requesterOnly "error" (.errorMsg "Group not found")])
    | some group =>
      if group.members.contains clientId then
        let messageData := Payload.groupMsg groupId message user timestamp
        (s, [.room ("group:" ++ groupId) "groupMessage" messageData,
             .requesterOnly "messageSent" messageData])
      else
        (s, [.requesterOnly "error" (.errorMsg "You are not a member of this group")])

/-- Model of `EventsGateway.handlePrivateMessage`: read-only on the service.  The emit
`server.to(recipientClientId)` targets the recipient's own socket room, i.e. a
direct delivery. -/
def handlePrivateMessage (s : EventsService)
    (recipientClientId message clientId timestamp : String) :
    EventsService × List Delivery :=
  match getUserObject s clientId, getUserObject s recipientClientId with
  | none, _ => (s, [.requesterOnly "error" (.errorMsg "Sender not found")])
  | some _, none => (s, [.requesterOnly "error" (.errorMsg "Recipient not found")])
  | some sender, some recipient =>
    let messageData := Payload.privateMsg message sender recipient timestamp
    (s, [.direct recipientClientId "privateMessage" messageData,
         .requesterOnly "privateMessageSent" messageData])

/-! ## Operation sequences over the registry -/

/-- One mutating registry operation. -/
inductive RegOp where
  | addUser (clientId username : String)
  | removeUser (clientId : String)
  | createGroup (groupId name creator : String)
  | joinGroup (groupId clientId : String)
  | leaveGroup (groupId clientId : String)
deriving DecidableEq, Repr

/-- Apply one operation; a thrown error (caught by the gateway) leaves the
registry unchanged, since both throws happen before any mutation. -/
def applyOp (s : EventsService) : RegOp → EventsService
  | .addUser c n => addUser s c n
  | .removeUser c => removeUser s c
  | .createGroup g n c =>
    match createGroup s g n c with
    | .ok (s2, _) => s2
    | .error _ => s
  | .joinGroup g c =>
    match joinGroup s g c with
    | .ok (s2, _) => s2
    | .error _ => s
  | .leaveGroup g c => leaveGroup s g c

/-- Run a sequence of operations from a state. -/
def runOps (s : EventsService) (ops : List RegOp) : EventsService :=
  ops.foldl applyOp s

/-- The membership list the code associates to `clientId`
(`clientGroups.get(clientId) || []`). -/
def idxOf (s : EventsService) (clientId : String) : List String :=
  (mapGet s.clientGroups clientId).getD []

/-- The bidirectional membership invariant of the spec: a connection is listed
in a stored group's member set exactly when that group's id is in the
connection's membership-index entry. -/
def Biconsistent (s : EventsService) : Prop :=
  ∀ c g grp, mapGet s.groups g = some grp →
    (c ∈ grp.members ↔ g ∈ idxOf s c)

/-- Strengthened induction invariant: every membership-index entry points to a
stored group containing that client, and conversely. -/
def GoodState (s : EventsService) : Prop :=
  ∀ c g, g ∈ idxOf s c ↔ ∃ grp, mapGet s.groups g = some grp ∧ c ∈ grp.members

/-- No stored group has an empty member set. -/
def NoEmptyGroups (s : EventsService) : Prop :=
  ∀ g grp, mapGet s.groups g = some grp → grp.members ≠ []

/-- Operation sequences in which `addUser` is only invoked for a connId that is
currently a member of no stored group (in particular, a connId not yet
registered and not yet placed in any group). -/
inductive SafeFrom : EventsService → List RegOp → Prop where
  | nil (s : EventsService) : SafeFrom s []
  | consAdd (s : EventsService) (c n : String) (ops : List RegOp)
      (hc : ∀ g grp, mapGet s.groups g = some grp → c ∉ grp.members)
      (htail : SafeFrom (applyOp s (.addUser c n)) ops) :
      SafeFrom s (.addUser c n :: ops)
  | consOther (s : EventsService) (op : RegOp) (ops : List RegOp)
      (hop : ∀ c n, op ≠ .addUser c n)
      (htail : SafeFrom (applyOp s op) ops) :
      SafeFrom s (op :: ops)

/-- Whether an `Except` result is the thrown-error case (caught by the gateway
and turned into a requester-only error response). -/
def exceptFails {α : Type} : Except String α → Bool
  | .error _ => true
  | .ok _ => false

/-- The registry state after a `joinGroup` request: the new state on success,
the unchanged state when the error was thrown (the throw happens before any
mutation and the gateway catches it). -/
def joinGroupState (s : EventsService) (groupId clientId : String) : EventsService :=
  match joinGroup s groupId clientId with
  | .ok (s2, _) => s2
  | .error _ => s

/-! ## Lemmas about the map primitives -/

theorem mapGet_mapSet {V : Type} (m : List (String × V)) (k k2 : String) (v : V) :
    mapGet (mapSet m k v) k2 = if k = k2 then some v else mapGet m k2 := by
  induction m with
  | nil => simp [mapGet, mapSet]
  | cons p rest ih =>
    obtain ⟨ka, va⟩ := p
    by_cases hak : ka = k
    · subst hak
      by_cases hk2 : ka = k2
      · subst hk2; simp [mapGet, mapSet]
      · simp [mapGet, mapSet, hk2]
    · by_cases hk2 : ka = k2
      · subst hk2
        have hne : ¬ k = ka := fun h => hak h.symm
        simp [mapGet, mapSet, hak, hne]
      · simp [mapGet, mapSet, hak, hk2, ih]

theorem mapGet_mapDelete {V : Type} (m : List (String × V)) (k k2 : String) :
    mapGet (mapDelete m k) k2 = if k = k2 then none else mapGet m k2 := by
  induction m with
  | nil => simp [mapGet, mapDelete]
  | cons p rest ih =>
    obtain ⟨ka, va⟩ := p
    by_cases hak : ka = k
    · subst hak
      have h1 : mapDelete ((ka, va) :: rest) ka = mapDelete rest ka := by
        simp [mapDelete]
      rw [h1, ih]
      by_cases hk2 : ka = k2
      · simp [hk2]
      · simp [hk2, mapGet]
    · have h1 : mapDelete ((ka, va) :: rest) k = (ka, va) :: mapDelete rest k := by
        simp [mapDelete, hak]
      rw [h1]
      by_cases hk2 : ka = k2
      · subst hk2
        have hne : ¬ k = ka := fun h => hak h.symm
        simp [mapGet, hne]
      · simp [mapGet, hk2, ih]

theorem mapSet_get_self {V : Type} (m : List (String × V)) (k : String) (v : V)
    (h : mapGet m k = some v) : mapSet m k v = m := by
  induction m with
  | nil => simp [mapGet] at h
  | cons p rest ih =>
    obtain ⟨ka, va⟩ := p
    by_cases hak : ka = k
    · subst hak
      simp [mapGet] at h
      simp [mapSet, h]
    · simp [mapGet, hak] at h
      simp [mapSet, hak, ih h]

/-! ## List helper lemmas -/

theorem mem_filter_ne (l : List String) (a c : String) :
    a ∈ l.filter (fun id => id ≠ c) ↔ a ∈ l ∧ a ≠ c := by
  simp [List.mem_filter]

theorem filter_ne_of_not_mem (l : List String) (c : String) (h : c ∉ l) :
    l.filter (fun id => id ≠ c) = l := by
  apply List.filter_eq_self.mpr
  intro a ha
  simp only [decide_eq_true_eq]
  intro hac
  exact h (hac ▸ ha)

theorem filter_ne_idem (l : List String) (c : String) :
    (l.filter (fun id => id ≠ c)).filter (fun id => id ≠ c)
      = l.filter (fun id => id ≠ c) := by
  apply filter_ne_of_not_mem
  intro h
  exact ((mem_filter_ne l c c).mp h).2 rfl

theorem filterMap_mapGet_skip {V : Type} (m : List (String × V)) (c : String)
    (h : mapGet m c = none) (l : List String) :
    l.filterMap (fun id => mapGet m id)
      = (l.filter (fun id => id ≠ c)).filterMap (fun id => mapGet m id) := by
  induction l with
  | nil => rfl
  | cons a l ih =>
    by_cases hac : a = c
    · subst hac
      simp [List.filterMap_cons, h, ih]
    · simp [List.filterMap_cons, hac, List.filter_cons]
      cases hget : mapGet m a <;> simp [List.filterMap_cons, hget, ih]

/-! ## Characterizing removeUser's group-cleanup loop -/

theorem mapGet_removeFromGroup_foldl (clientId : String) (l : List String)
    (gs : List (String × ChatGroup)) (g : String) :
    mapGet (l.foldl (removeFromGroup clientId) gs) g =
      if g ∈ l then
        (mapGet gs g).map
          (fun grp => { grp with members := grp.members.filter (fun id => id ≠ clientId) })
      else mapGet gs g := by
  induction l generalizing gs with
  | nil => simp
  | cons a l ih =>
    rw [List.foldl_cons, ih]
    by_cases hga : g = a
    · subst hga
      cases hget : mapGet gs g with
      | none =>
        have hstep : removeFromGroup clientId gs g = gs := by
          simp [removeFromGroup, hget]
        simp [hstep, hget]
      | some grp =>
        have hstep : removeFromGroup clientId gs g
            = mapSet gs g { grp with members := grp.members.filter (fun id => id ≠ clientId) } := by
          simp [removeFromGroup, hget]
        have hgetstep : mapGet (removeFromGroup clientId gs g) g
            = some { grp with members := grp.members.filter (fun id => id ≠ clientId) } := by
          rw [hstep, mapGet_mapSet, if_pos rfl]
        simp [hgetstep, hget, filter_ne_idem]
    · have hstep : mapGet (removeFromGroup clientId gs a) g = mapGet gs g := by
        unfold removeFromGroup
        cases hget : mapGet gs a with
        | none => rfl
        | some grp =>
          have := mapGet_mapSet gs a g
            { grp with members := grp.members.filter (fun id => id ≠ clientId) }
          simp only [this]
          have : ¬ a = g := fun h => hga h.symm
          simp [this]
      by_cases hgl : g ∈ l <;> simp [hga, hgl, hstep]

/-! ## Unfolding lemmas for the registry operations -/

theorem contains_iff_mem (l : List String) (a : String) : l.contains a = true ↔ a ∈ l :=
  List.elem_iff

theorem groups_addUser (s : EventsService) (c0 n : String) :
    (addUser s c0 n).groups = s.groups := rfl

theorem idxOf_addUser (s : EventsService) (c0 n c : String) :
    idxOf (addUser s c0 n) c = if c0 = c then [] else idxOf s c := by
  unfold idxOf addUser
  simp only [mapGet_mapSet]
  by_cases h : c0 = c <;> simp [h]

theorem groups_removeUser (s : EventsService) (c0 : String) :
    (removeUser s c0).groups = (idxOf s c0).foldl (removeFromGroup c0) s.groups := rfl

theorem idxOf_removeUser (s : EventsService) (c0 c : String) :
    idxOf (removeUser s c0) c = if c0 = c then [] else idxOf s c := by
  unfold idxOf removeUser
  simp only [mapGet_mapDelete]
  by_cases h : c0 = c <;> simp [h]

theorem createGroup_ok (s : EventsService) (g0 n c0 : String)
    (h : mapGet s.groups g0 = none) :
    createGroup s g0 n c0 = .ok
      ({ s with
          groups := mapSet s.groups g0 ⟨g0, n, c0, [c0]⟩
          clientGroups := mapSet s.clientGroups c0 (idxOf s c0 ++ [g0]) },
        ⟨g0, n, c0, [c0]⟩) := by
  unfold createGroup mapHas idxOf
  rw [h]
  rfl

theorem createGroup_err (s : EventsService) (g0 n c0 : String) (grp : ChatGroup)
    (h : mapGet s.groups g0 = some grp) :
    createGroup s g0 n c0 = .error ("Group with ID " ++ g0 ++ " already exists") := by
  unfold createGroup mapHas
  rw [h]
  rfl

theorem joinGroup_not_found (s : EventsService) (g0 c0 : String)
    (h : mapGet s.groups g0 = none) :
    joinGroup s g0 c0 = .error ("Group with ID " ++ g0 ++ " not found") := by
  unfold joinGroup
  rw [h]

theorem joinGroup_already (s : EventsService) (g0 c0 : String) (grp : ChatGroup)
    (h : mapGet s.groups g0 = some grp) (hm : c0 ∈ grp.members) :
    joinGroup s g0 c0 = .ok (s, grp) := by
  unfold joinGroup
  rw [h]
  simp [contains_iff_mem, hm]

theorem joinGroup_new (s : EventsService) (g0 c0 : String) (grp : ChatGroup)
    (h : mapGet s.groups g0 = some grp) (hm : c0 ∉ grp.members) :
    joinGroup s g0 c0 = .ok
      ({ s with
          groups := mapSet s.groups g0 { grp with members := grp.members ++ [c0] }
          clientGroups := mapSet s.clientGroups c0 (idxOf s c0 ++ [g0]) },
        { grp with members := grp.members ++ [c0] }) := by
  unfold joinGroup idxOf
  rw [h]
  simp [contains_iff_mem, hm]

theorem leaveGroup_not_found (s : EventsService) (g0 c0 : String)
    (h : mapGet s.groups g0 = none) :
    leaveGroup s g0 c0 = s := by
  unfold leaveGroup
  rw [h]

theorem leaveGroup_deleted (s : EventsService) (g0 c0 : String) (grp : ChatGroup)
    (h : mapGet s.groups g0 = some grp)
    (he : grp.members.filter (fun id => id ≠ c0) = []) :
    leaveGroup s g0 c0 = { s with
      groups := mapDelete s.groups g0
      clientGroups :=
        mapSet s.clientGroups c0 ((idxOf s c0).filter (fun id => id ≠ g0)) } := by
  unfold leaveGroup idxOf
  rw [h]
  simp only []
  rw [if_pos he]

theorem leaveGroup_kept (s : EventsService) (g0 c0 : String) (grp : ChatGroup)
    (h : mapGet s.groups g0 = some grp)
    (he : grp.members.filter (fun id => id ≠ c0) ≠ []) :
    leaveGroup s g0 c0 = { s with
      groups := mapSet s.groups g0 { grp with members := grp.members.filter (fun id => id ≠ c0) }
      clientGroups :=
        mapSet s.clientGroups c0 ((idxOf s c0).filter (fun id => id ≠ g0)) } := by
  unfold leaveGroup idxOf
  rw [h]
  simp only []
  rw [if_neg he]

/-! ## Preservation of the strengthened bidirectional invariant -/

theorem goodState_initService : GoodState initService := by
  intro c g
  constructor
  · intro h
    simp [idxOf, initService, mapGet] at h
  · rintro ⟨grp, hg, -⟩
    simp [initService, mapGet] at hg

theorem goodState_addUser (s : EventsService) (c0 n : String) (hs : GoodState s)
    (hc : ∀ g grp, mapGet s.groups g = some grp → c0 ∉ grp.members) :
    GoodState (addUser s c0 n) := by
  intro c g
  rw [groups_addUser, idxOf_addUser]
  by_cases hcc : c0 = c
  · subst hcc
    rw [if_pos rfl]
    constructor
    · intro h
      simp at h
    · rintro ⟨grp, hg, hm⟩
      exact absurd hm (hc g grp hg)
  · rw [if_neg hcc]
    exact hs c g

theorem goodState_removeUser (s : EventsService) (c0 : String) (hs : GoodState s) :
    GoodState (removeUser s c0) := by
  intro c g
  rw [idxOf_removeUser]
  have hgr : mapGet (removeUser s c0).groups g =
      if g ∈ idxOf s c0 then
        (mapGet s.groups g).map
          (fun grp => { grp with members := grp.members.filter (fun id => id ≠ c0) })
      else mapGet s.groups g := by
    rw [groups_removeUser, mapGet_removeFromGroup_foldl]
  rw [hgr]
  by_cases hcc : c0 = c
  · subst hcc
    rw [if_pos rfl]
    constructor
    · intro h
      simp at h
    · rintro ⟨grp2, hg2, hm2⟩
      by_cases hgidx : g ∈ idxOf s c0
      · rw [if_pos hgidx] at hg2
        cases hget : mapGet s.groups g with
        | none => rw [hget] at hg2; exact Option.noConfusion hg2
        | some grp =>
          rw [hget, Option.map_some'] at hg2
          injection hg2 with he
          rw [← he] at hm2
          exact (((mem_filter_ne _ _ _).mp hm2).2 rfl).elim
      · rw [if_neg hgidx] at hg2
        exact (hgidx ((hs c0 g).mpr ⟨grp2, hg2, hm2⟩)).elim
  · rw [if_neg hcc]
    by_cases hgidx : g ∈ idxOf s c0
    · rw [if_pos hgidx]
      obtain ⟨grp, hget, hc0m⟩ := (hs c0 g).mp hgidx
      rw [hget, Option.map_some']
      constructor
      · intro h
        obtain ⟨grp2, hg2, hm2⟩ := (hs c g).mp h
        rw [hget] at hg2
        injection hg2 with he
        refine ⟨_, rfl, (mem_filter_ne _ _ _).mpr ⟨he ▸ hm2, ?_⟩⟩
        intro hc2
        exact hcc hc2.symm
      · rintro ⟨grp2, hg2, hm2⟩
        injection hg2 with he
        rw [← he] at hm2
        exact (hs c g).mpr ⟨grp, hget, ((mem_filter_ne _ _ _).mp hm2).1⟩
    · rw [if_neg hgidx]
      exact hs c g

theorem goodState_createGroup (s : EventsService) (g0 n c0 : String)
    (hs : GoodState s) (h : mapGet s.groups g0 = none) :
    GoodState { s with
      groups := mapSet s.groups g0 ⟨g0, n, c0, [c0]⟩
      clientGroups := mapSet s.clientGroups c0 (idxOf s c0 ++ [g0]) } := by
  have hfresh : ∀ c, g0 ∉ idxOf s c := by
    intro c hmem
    obtain ⟨grp, hg, -⟩ := (hs c g0).mp hmem
    rw [h] at hg
    exact Option.noConfusion hg
  intro c g
  unfold idxOf
  simp only [mapGet_mapSet]
  by_cases hcc : c0 = c <;> by_cases hgg : g0 = g
  · subst hcc; subst hgg
    rw [if_pos rfl, if_pos rfl]
    simp
  · subst hcc
    rw [if_pos rfl, if_neg hgg]
    simp only [Option.getD_some, List.mem_append, List.mem_singleton]
    constructor
    · intro hmem
      rcases hmem with hmem | hmem
      · exact (hs c0 g).mp hmem
      · exact absurd hmem.symm hgg
    · intro hex
      exact Or.inl ((hs c0 g).mpr hex)
  · subst hgg
    rw [if_neg hcc, if_pos rfl]
    constructor
    · intro hmem
      exact absurd hmem (hfresh c)
    · rintro ⟨grp, hgrp, hm⟩
      injection hgrp with he
      rw [← he] at hm
      simp at hm
      exact absurd hm.symm hcc
  · rw [if_neg hcc, if_neg hgg]
    exact hs c g

theorem goodState_joinGroup (s : EventsService) (g0 c0 : String) (grp : ChatGroup)
    (hs : GoodState s) (h : mapGet s.groups g0 = some grp) (hm : c0 ∉ grp.members) :
    GoodState { s with
      groups := mapSet s.groups g0 { grp with members := grp.members ++ [c0] }
      clientGroups := mapSet s.clientGroups c0 (idxOf s c0 ++ [g0]) } := by
  have hfresh : g0 ∉ idxOf s c0 := by
    intro hmem
    obtain ⟨grp2, hg2, hm2⟩ := (hs c0 g0).mp hmem
    rw [h] at hg2
    injection hg2 with he
    exact hm (he ▸ hm2)
  intro c g
  unfold idxOf
  simp only [mapGet_mapSet]
  by_cases hcc : c0 = c <;> by_cases hgg : g0 = g
  · subst hcc; subst hgg
    rw [if_pos rfl, if_pos rfl]
    simp
  · subst hcc
    rw [if_pos rfl, if_neg hgg]
    simp only [Option.getD_some, List.mem_append, List.mem_singleton]
    constructor
    · intro hmem
      rcases hmem with hmem | hmem
      · exact (hs c0 g).mp hmem
      · exact absurd hmem.symm hgg
    · intro hex
      exact Or.inl ((hs c0 g).mpr hex)
  · subst hgg
    rw [if_neg hcc, if_pos rfl]
    constructor
    · intro hmem
      obtain ⟨grp2, hg2, hm2⟩ := (hs c g0).mp hmem
      rw [h] at hg2
      injection hg2 with he
      refine ⟨_, rfl, ?_⟩
      simp only [List.mem_append, List.mem_singleton]
      exact Or.inl (he ▸ hm2)
    · rintro ⟨grp2, hg2, hm2⟩
      injection hg2 with he
      rw [← he] at hm2
      simp only [List.mem_append, List.mem_singleton] at hm2
      rcases hm2 with hm2 | hm2
      · exact (hs c g0).mpr ⟨grp, h, hm2⟩
      · exact absurd hm2.symm hcc
  · rw [if_neg hcc, if_neg hgg]
    exact hs c g

theorem goodState_leaveGroup_deleted (s : EventsService) (g0 c0 : String)
    (grp : ChatGroup) (hs : GoodState s) (h : mapGet s.groups g0 = some grp)
    (he : grp.members.filter (fun id => id ≠ c0) = []) :
    GoodState { s with
      groups := mapDelete s.groups g0
      clientGroups :=
        mapSet s.clientGroups c0 ((idxOf s c0).filter (fun id => id ≠ g0)) } := by
  have hall : ∀ x ∈ grp.members, x = c0 := by
    intro x hx
    by_contra hne
    have hmem : x ∈ grp.members.filter (fun id => id ≠ c0) :=
      (mem_filter_ne _ _ _).mpr ⟨hx, hne⟩
    rw [he] at hmem
    simp at hmem
  intro c g
  unfold idxOf
  simp only [mapGet_mapSet, mapGet_mapDelete]
  by_cases hcc : c0 = c <;> by_cases hgg : g0 = g
  · subst hcc; subst hgg
    rw [if_pos rfl, if_pos rfl]
    simp only [Option.getD_some]
    constructor
    · intro hmem
      exact absurd ((mem_filter_ne _ _ _).mp hmem).2 (by simp)
    · rintro ⟨grp2, hg2, -⟩
      exact Option.noConfusion hg2
  · subst hcc
    rw [if_pos rfl, if_neg hgg]
    simp only [Option.getD_some]
    constructor
    · intro hmem
      exact (hs c0 g).mp ((mem_filter_ne _ _ _).mp hmem).1
    · intro hex
      refine (mem_filter_ne _ _ _).mpr ⟨(hs c0 g).mpr hex, ?_⟩
      intro hge
      exact hgg hge.symm
  · subst hgg
    rw [if_neg hcc, if_pos rfl]
    constructor
    · intro hmem
      obtain ⟨grp2, hg2, hm2⟩ := (hs c g0).mp hmem
      rw [h] at hg2
      injection hg2 with heq
      exact absurd (hall c (heq ▸ hm2)).symm hcc
    · rintro ⟨grp2, hg2, -⟩
      exact Option.noConfusion hg2
  · rw [if_neg hcc, if_neg hgg]
    exact hs c g

theorem goodState_leaveGroup_kept (s : EventsService) (g0 c0 : String)
    (grp : ChatGroup) (hs : GoodState s) (h : mapGet s.groups g0 = some grp) :
    GoodState { s with
      groups := mapSet s.groups g0 { grp with members := grp.members.filter (fun id => id ≠ c0) }
      clientGroups :=
        mapSet s.clientGroups c0 ((idxOf s c0).filter (fun id => id ≠ g0)) } := by
  intro c g
  unfold idxOf
  simp only [mapGet_mapSet]
  by_cases hcc : c0 = c <;> by_cases hgg : g0 = g
  · subst hcc; subst hgg
    rw [if_pos rfl, if_pos rfl]
    simp only [Option.getD_some]
    constructor
    · intro hmem
      exact absurd ((mem_filter_ne _ _ _).mp hmem).2 (by simp)
    · rintro ⟨grp2, hg2, hm2⟩
      injection hg2 with heq
      rw [← heq] at hm2
      exact absurd ((mem_filter_ne _ _ _).mp hm2).2 (by simp)
  · subst hcc
    rw [if_pos rfl, if_neg hgg]
    simp only [Option.getD_some]
    constructor
    · intro hmem
      exact (hs c0 g).mp ((mem_filter_ne _ _ _).mp hmem).1
    · intro hex
      refine (mem_filter_ne _ _ _).mpr ⟨(hs c0 g).mpr hex, ?_⟩
      intro hge
      exact hgg hge.symm
  · subst hgg
    rw [if_neg hcc, if_pos rfl]
    constructor
    · intro hmem
      obtain ⟨grp2, hg2, hm2⟩ := (hs c g0).mp hmem
      rw [h] at hg2
      injection hg2 with heq
      refine ⟨_, rfl, (mem_filter_ne _ _ _).mpr ⟨heq ▸ hm2, ?_⟩⟩
      intro hce
      exact hcc hce.symm
    · rintro ⟨grp2, hg2, hm2⟩
      injection hg2 with heq
      rw [← heq] at hm2
      exact (hs c g0).mpr ⟨grp, h, ((mem_filter_ne _ _ _).mp hm2).1⟩
  · rw [if_neg hcc, if_neg hgg]
    exact hs c g

theorem goodState_applyOp (s : EventsService) (op : RegOp) (hs : GoodState s)
    (hadd : ∀ c n, op = .addUser c n →
      ∀ g grp, mapGet s.groups g = some grp → c ∉ grp.members) :
    GoodState (applyOp s op) := by
  cases op with
  | addUser c n => exact goodState_addUser s c n hs (hadd c n rfl)
  | removeUser c => exact goodState_removeUser s c hs
  | createGroup g n c =>
    show GoodState (match createGroup s g n c with
      | .ok (s2, _) => s2
      | .error _ => s)
    cases hg : mapGet s.groups g with
    | none =>
      rw [createGroup_ok s g n c hg]
      exact goodState_createGroup s g n c hs hg
    | some grp =>
      rw [createGroup_err s g n c grp hg]
      exact hs
  | joinGroup g c =>
    show GoodState (match joinGroup s g c with
      | .ok (s2, _) => s2
      | .error _ => s)
    cases hg : mapGet s.groups g with
    | none =>
      rw [joinGroup_not_found s g c hg]
      exact hs
    | some grp =>
      by_cases hm : c ∈ grp.members
      · rw [joinGroup_already s g c grp hg hm]
        exact hs
      · rw [joinGroup_new s g c grp hg hm]
        exact goodState_joinGroup s g c grp hs hg hm
  | leaveGroup g c =>
    show GoodState (leaveGroup s g c)
    cases hg : mapGet s.groups g with
    | none =>
      rw [leaveGroup_not_found s g c hg]
      exact hs
    | some grp =>
      by_cases he : grp.members.filter (fun id => id ≠ c) = []
      · rw [leaveGroup_deleted s g c grp hg he]
        exact goodState_leaveGroup_deleted s g c grp hs hg he
      · rw [leaveGroup_kept s g c grp hg he]
        exact goodState_leaveGroup_kept s g c grp hs hg

theorem goodState_runOps (s : EventsService) (ops : List RegOp)
    (hsafe : SafeFrom s ops) (hs : GoodState s) : GoodState (runOps s ops) := by
  induction hsafe with
  | nil s => exact hs
  | consAdd s c n ops hc htail ih =>
    refine ih (goodState_applyOp s (.addUser c n) hs ?_)
    intro c2 n2 h2 g grp hg
    injection h2 with h3 h4
    subst h3
    exact hc g grp hg
  | consOther s op ops hop htail ih =>
    refine ih (goodState_applyOp s op hs ?_)
    intro c2 n2 h2
    exact absurd h2 (hop c2 n2)

theorem biconsistent_of_goodState (s : EventsService) (h : GoodState s) :
    Biconsistent s := by
  intro c g grp hg
  constructor
  · intro hm
    exact (h c g).mpr ⟨grp, hg, hm⟩
  · intro hidx
    obtain ⟨grp2, hg2, hm2⟩ := (h c g).mp hidx
    rw [hg] at hg2
    injection hg2 with he
    exact he ▸ hm2

/-! ## Claim theorems -/

/-- C1 (counterexample): the bidirectional membership invariant does NOT hold
after every sequence of registry operations — re-registering `c1` (who still
belongs to group `g1`) resets `clientGroups["c1"]` to `[]` while leaving `c1`
in `g1`'s member list. -/
theorem registry_bidirectional_membership_invariant_counterexample :
    ¬ Biconsistent (runOps initService
      [.addUser "c1" "a", .createGroup "g1" "T" "c1", .addUser "c1" "b"]) := by
  intro h
  have h2 := h "c1" "g1" ⟨"g1", "T", "c1", ["c1"]⟩ (by decide)
  have h3 := h2.mp (by decide)
  have h4 : idxOf (runOps initService
      [.addUser "c1" "a", .createGroup "g1" "T" "c1", .addUser "c1" "b"]) "c1" = [] := by
    decide
  rw [h4] at h3
  simp at h3

/-- C1 (amended): after every sequence of registry operations in which
`addUser` is only invoked for a connId currently in no group's member set,
every stored group's member set and the membership index `clientGroups` agree
bidirectionally: `c ∈ members(g) ⟺ g ∈ clientGroups(c)`. -/
theorem registry_bidirectional_membership_invariant (ops : List RegOp)
    (h : SafeFrom initService ops) :
    Biconsistent (runOps initService ops) :=
  biconsistent_of_goodState _ (goodState_runOps _ _ h goodState_initService)

/-- Witness for C1's amended theorem at a concrete operation sequence. -/
theorem registry_bidirectional_membership_invariant_witness :
    Biconsistent (runOps initService
      [.addUser "c1" "alice", .createGroup "g1" "Team" "c1", .joinGroup "g1" "c2"]) := by
  apply registry_bidirectional_membership_invariant
  apply SafeFrom.consAdd
  · intro g grp hg
    simp [initService, mapGet] at hg
  · apply SafeFrom.consOther
    · intro c n hne
      exact RegOp.noConfusion hne
    · apply SafeFrom.consOther
      · intro c n hne
        exact RegOp.noConfusion hne
      · exact SafeFrom.nil _

/-- C2 (code bug): `removeUser` does not delete groups whose member set
becomes empty — after the sole member `c1` of `g1` is removed, the empty
group `g1` is still stored, violating the no-empty-group invariant. -/
theorem no_empty_group_invariant_violated_by_removeUser :
    ¬ NoEmptyGroups (runOps initService
      [.addUser "c1" "a", .createGroup "g1" "T" "c1", .removeUser "c1"]) := by
  intro h
  exact h "g1" ⟨"g1", "T", "c1", []⟩ (by decide) rfl

/-- C3 (code bug): after the sole remaining member of `g1` disconnects
(`removeUser`), the empty group is still stored and a subsequent
`createGroup("g1", ...)` fails with the duplicate-group error instead of
succeeding. -/
theorem createGroup_after_sole_member_disconnect_fails :
    getGroup (runOps initService
      [.addUser "c1" "a", .createGroup "g1" "T" "c1", .removeUser "c1"]) "g1"
      = some ⟨"g1", "T", "c1", []⟩
    ∧ createGroup (runOps initService
      [.addUser "c1" "a", .createGroup "g1" "T" "c1", .removeUser "c1"])
        "g1" "Team2" "c2"
      = .error "Group with ID g1 already exists" := by
  constructor
  · decide
  · rfl

theorem joinGroupState_of_ok (s s2 : EventsService) (g c : String) (grp2 : ChatGroup)
    (h : joinGroup s g c = .ok (s2, grp2)) : joinGroupState s g c = s2 := by
  unfold joinGroupState
  rw [h]

theorem joinGroupState_of_err (s : EventsService) (g c e : String)
    (h : joinGroup s g c = .error e) : joinGroupState s g c = s := by
  unfold joinGroupState
  rw [h]

/-- C4: `joinGroup` fails (throws the caught not-found error) exactly when the
group does not exist; joining as an existing member is a no-op returning the
current group and the unchanged state; and joining twice leaves the whole
registry state identical to joining once. -/
theorem joinGroup_semantics_and_idempotence (s : EventsService) (g c : String) :
    (exceptFails (joinGroup s g c) = true ↔ mapGet s.groups g = none)
    ∧ (∀ grp, mapGet s.groups g = some grp → c ∈ grp.members →
        joinGroup s g c = .ok (s, grp))
    ∧ joinGroupState (joinGroupState s g c) g c = joinGroupState s g c := by
  cases hg : mapGet s.groups g with
  | none =>
    have h1 := joinGroup_not_found s g c hg
    have hst : joinGroupState s g c = s := joinGroupState_of_err s g c _ h1
    refine ⟨?_, ?_, ?_⟩
    · rw [h1]
      simp [exceptFails]
    · intro grp hgrp
      exact Option.noConfusion hgrp
    · rw [hst, hst]
  | some grp =>
    by_cases hm : c ∈ grp.members
    · have h1 := joinGroup_already s g c grp hg hm
      have hst : joinGroupState s g c = s := joinGroupState_of_ok s s g c grp h1
      refine ⟨?_, ?_, ?_⟩
      · rw [h1]
        simp [exceptFails, hg]
      · intro grp2 hgrp2 hm2
        injection hgrp2 with he
        rw [← he]
        exact h1
      · rw [hst, hst]
    · have h1 := joinGroup_new s g c grp hg hm
      have hst1 := joinGroupState_of_ok _ _ _ _ _ h1
      refine ⟨?_, ?_, ?_⟩
      · rw [h1]
        simp [exceptFails, hg]
      · intro grp2 hgrp2 hm2
        injection hgrp2 with he
        exact absurd (he ▸ hm2) hm
      · have hg2 : mapGet (joinGroupState s g c).groups g
            = some { grp with members := grp.members ++ [c] } := by
          rw [hst1]
          show mapGet (mapSet s.groups g { grp with members := grp.members ++ [c] }) g = _
          rw [mapGet_mapSet, if_pos rfl]
        have h2 := joinGroup_already (joinGroupState s g c) g c
          { grp with members := grp.members ++ [c] } hg2 (by simp)
        exact joinGroupState_of_ok _ _ _ _ _ h2

/-- Witness for C4 at concrete states: joining as an existing member returns
the unchanged state and group, and joining twice equals joining once. -/
theorem joinGroup_semantics_and_idempotence_witness :
    joinGroup (runOps initService [.addUser "c1" "a", .createGroup "g1" "T" "c1"])
        "g1" "c1"
      = .ok (runOps initService [.addUser "c1" "a", .createGroup "g1" "T" "c1"],
          ⟨"g1", "T", "c1", ["c1"]⟩)
    ∧ joinGroupState (joinGroupState (runOps initService
          [.addUser "c1" "a", .createGroup "g1" "T" "c1"]) "g1" "c2") "g1" "c2"
      = joinGroupState (runOps initService
          [.addUser "c1" "a", .createGroup "g1" "T" "c1"]) "g1" "c2" :=
  ⟨(joinGroup_semantics_and_idempotence _ "g1" "c1").2.1
      ⟨"g1", "T", "c1", ["c1"]⟩ (by decide) (by decide),
    (joinGroup_semantics_and_idempotence _ "g1" "c2").2.2⟩

/-- C5: `createGroup` fails (throws the caught duplicate error) exactly when
the groupId currently exists; on success the stored group has the given id,
name, creator and sole member, and an immediately following `getGroup`
returns exactly that group. -/
theorem createGroup_roundTrip (s : EventsService) (gid name c : String) :
    (exceptFails (createGroup s gid name c) = true ↔ mapHas s.groups gid = true)
    ∧ (mapGet s.groups gid = none →
        ∃ s2, createGroup s gid name c = .ok (s2, ⟨gid, name, c, [c]⟩)
          ∧ getGroup s2 gid = some ⟨gid, name, c, [c]⟩) := by
  cases hg : mapGet s.groups gid with
  | none =>
    refine ⟨?_, fun _ => ?_⟩
    · rw [createGroup_ok s gid name c hg]
      simp [exceptFails, mapHas, hg]
    · refine ⟨_, createGroup_ok s gid name c hg, ?_⟩
      unfold getGroup
      show mapGet (mapSet s.groups gid ⟨gid, name, c, [c]⟩) gid = _
      rw [mapGet_mapSet, if_pos rfl]
  | some grp =>
    refine ⟨?_, fun h => ?_⟩
    · rw [createGroup_err s gid name c grp hg]
      simp [exceptFails, mapHas, hg]
    · exact Option.noConfusion h

/-- Witness for C5: the round trip at the empty registry. -/
theorem createGroup_roundTrip_witness :
    ∃ s2, createGroup initService "g1" "Team" "c1"
        = .ok (s2, ⟨"g1", "Team", "c1", ["c1"]⟩)
      ∧ getGroup s2 "g1" = some ⟨"g1", "Team", "c1", ["c1"]⟩ :=
  (createGroup_roundTrip initService "g1" "Team" "c1").2 rfl

/-- C6 (counterexample): an unregistered sender of `groupMessage` receives the
error message "User not found", not "Sender not found" as the claim states. -/
theorem groupMessage_sender_error_message_counterexample :
    (handleGroupMessage initService "g1" "hi" "c3" "t0").2
        ≠ [.requesterOnly "error" (.errorMsg "Sender not found")]
    ∧ (handleGroupMessage initService "g1" "hi" "c3" "t0").2
        = [.requesterOnly "error" (.errorMsg "User not found")] := by
  constructor
  · decide
  · rfl

/-- C6 (amended): each failed `groupMessage` precondition produces exactly one
requester-only error delivery — "User not found" for an unregistered sender,
"Group not found" for a missing group, "You are not a member of this group"
for a non-member sender — with no room delivery and the registry unchanged. -/
theorem groupMessage_error_handling (s : EventsService) (gid msg c ts : String) :
    (getUserObject s c = none →
      handleGroupMessage s gid msg c ts
        = (s, [.requesterOnly "error" (.errorMsg "User not found")]))
    ∧ (∀ u, getUserObject s c = some u → getGroup s gid = none →
      handleGroupMessage s gid msg c ts
        = (s, [.requesterOnly "error" (.errorMsg "Group not found")]))
    ∧ (∀ u grp, getUserObject s c = some u → getGroup s gid = some grp →
        c ∉ grp.members →
      handleGroupMessage s gid msg c ts
        = (s, [.requesterOnly "error"
            (.errorMsg "You are not a member of this group")])) := by
  refine ⟨?_, ?_, ?_⟩
  · intro h
    unfold handleGroupMessage
    rw [h]
  · intro u hu hg
    unfold handleGroupMessage
    rw [hu, hg]
  · intro u grp hu hg hm
    unfold handleGroupMessage
    rw [hu, hg]
    simp [contains_iff_mem, hm]

/-- Witness for C6's amended theorem: the three error cases at concrete
registries. -/
theorem groupMessage_error_handling_witness :
    handleGroupMessage initService "g1" "hi" "c9" "t0"
      = (initService, [.requesterOnly "error" (.errorMsg "User not found")])
    ∧ handleGroupMessage (addUser initService "c1" "alice") "g1" "hi" "c1" "t0"
      = (addUser initService "c1" "alice",
          [.requesterOnly "error" (.errorMsg "Group not found")])
    ∧ handleGroupMessage (runOps initService
          [.addUser "c1" "a", .addUser "c3" "x", .createGroup "g1" "T" "c1"])
        "g1" "hi" "c3" "t0"
      = (runOps initService
          [.addUser "c1" "a", .addUser "c3" "x", .createGroup "g1" "T" "c1"],
          [.requesterOnly "error"
            (.errorMsg "You are not a member of this group")]) :=
  ⟨(groupMessage_error_handling initService "g1" "hi" "c9" "t0").1 rfl,
    (groupMessage_error_handling _ "g1" "hi" "c1" "t0").2.1
      ⟨"c1", "alice"⟩ rfl rfl,
    (groupMessage_error_handling _ "g1" "hi" "c3" "t0").2.2
      ⟨"c3", "x"⟩ ⟨"g1", "T", "c1", ["c1"]⟩ (by decide) (by decide) (by decide)⟩

/-- C7 (counterexample): re-registering `c1` (still a member of `g1`) resets
the membership-index entry of `c1` from `["g1"]` to `[]` while `c1` remains in
the stored member set, so the memberships recorded for `c1` are not the same
after the second `addUser` and the two sides of the index disagree. -/
theorem register_idempotence_counterexample :
    idxOf (runOps initService
        [.addUser "c1" "a", .createGroup "g1" "T" "c1"]) "c1" = ["g1"]
    ∧ idxOf (addUser (runOps initService
        [.addUser "c1" "a", .createGroup "g1" "T" "c1"]) "c1" "b") "c1" = []
    ∧ getGroup (addUser (runOps initService
        [.addUser "c1" "a", .createGroup "g1" "T" "c1"]) "c1" "b") "g1"
      = some ⟨"g1", "T", "c1", ["c1"]⟩ := by
  refine ⟨rfl, rfl, rfl⟩

/-- C7 (amended): calling `addUser` again replaces the stored displayName and
creates no duplicate membership entries, leaving every group member set and
every other connection's index entry untouched — but it resets the
re-registered connId's membership-index entry to the empty list instead of
preserving it. -/
theorem register_again_replaces_name_resets_index (s : EventsService) (c n : String) :
    getUser (addUser s c n) c = some n
    ∧ (addUser s c n).groups = s.groups
    ∧ idxOf (addUser s c n) c = []
    ∧ ∀ c2, c2 ≠ c → idxOf (addUser s c n) c2 = idxOf s c2 := by
  refine ⟨?_, rfl, ?_, ?_⟩
  · show mapGet (mapSet s.users c n) c = some n
    rw [mapGet_mapSet, if_pos rfl]
  · rw [idxOf_addUser, if_pos rfl]
  · intro c2 hne
    rw [idxOf_addUser, if_neg (fun h => hne h.symm)]

/-- Witness for C7's amended theorem at a concrete registry. -/
theorem register_again_replaces_name_resets_index_witness :
    getUser (addUser (runOps initService
        [.addUser "c1" "a", .createGroup "g1" "T" "c1"]) "c1" "b") "c1" = some "b"
    ∧ idxOf (addUser (runOps initService
        [.addUser "c1" "a", .createGroup "g1" "T" "c1"]) "c1" "b") "c9"
      = idxOf (runOps initService
        [.addUser "c1" "a", .createGroup "g1" "T" "c1"]) "c9" :=
  ⟨(register_again_replaces_name_resets_index _ "c1" "b").1,
    (register_again_replaces_name_resets_index _ "c1" "b").2.2.2 "c9" (by decide)⟩

/-- C8 (counterexample): `leaveGroup` for an existing group and a non-member
connId does not leave the registry state entirely unchanged — it materializes
an explicit (empty) membership-index entry for the connId; and on a stored
group with an empty member set (reachable through `removeUser`, which never
deletes emptied groups) it even deletes the group, although the connId is not
a member. -/
theorem leaveGroup_nonmember_counterexample :
    mapHas (runOps initService
        [.addUser "c1" "a", .createGroup "g1" "T" "c1"]).groups "g1" = true
    ∧ ((getGroup (runOps initService
        [.addUser "c1" "a", .createGroup "g1" "T" "c1"]) "g1").getD
          ⟨"", "", "", []⟩).members.contains "c2" = false
    ∧ leaveGroup (runOps initService
        [.addUser "c1" "a", .createGroup "g1" "T" "c1"]) "g1" "c2"
      ≠ runOps initService [.addUser "c1" "a", .createGroup "g1" "T" "c1"]
    ∧ getGroup (runOps initService
        [.addUser "c1" "a", .createGroup "g1" "T" "c1", .removeUser "c1"]) "g1"
      = some ⟨"g1", "T", "c1", []⟩
    ∧ getGroup (leaveGroup (runOps initService
        [.addUser "c1" "a", .createGroup "g1" "T" "c1", .removeUser "c1"])
        "g1" "c2") "g1" = none := by
  refine ⟨rfl, rfl, ?_, rfl, rfl⟩
  decide

/-- C8 (amended): `leaveGroup` raises no error in any case. When the group
does not exist the state is entirely unchanged. When the group exists the
effect is uniform in the connId: the connId is filtered out of the member set
and the group is deleted exactly when the resulting member set is empty; the
groupId is filtered out of the connId's membership-index entry, which is
re-stored (materializing an explicit, possibly empty, entry); `users` and
`userObjects` are untouched. Consequently a non-member's `leaveGroup` on a
group with a non-empty member set is observationally a no-op — `groups` and
every other connection's index entry are unchanged — but not a strict no-op
(the index entry is materialized), and on a stored empty-member group
(reachable only through the `removeUser` defect of C2) it deletes the
group. -/
theorem leaveGroup_noop_tolerance (s : EventsService) (g c : String) :
    (mapGet s.groups g = none → leaveGroup s g c = s)
    ∧ (∀ grp, mapGet s.groups g = some grp → c ∉ grp.members → grp.members ≠ [] →
        ((leaveGroup s g c).groups = s.groups
          ∧ (leaveGroup s g c).users = s.users
          ∧ (leaveGroup s g c).userObjects = s.userObjects
          ∧ mapGet (leaveGroup s g c).clientGroups c
              = some ((idxOf s c).filter (fun id => id ≠ g))
          ∧ ∀ c2, c2 ≠ c →
              mapGet (leaveGroup s g c).clientGroups c2 = mapGet s.clientGroups c2))
    ∧ (∀ grp, mapGet s.groups g = some grp →
        (getGroup (leaveGroup s g c) g
            = (if grp.members.filter (fun id => id ≠ c) = [] then none
               else some { grp with members := grp.members.filter (fun id => id ≠ c) })
          ∧ mapGet (leaveGroup s g c).clientGroups c
              = some ((idxOf s c).filter (fun id => id ≠ g))
          ∧ (leaveGroup s g c).users = s.users
          ∧ (leaveGroup s g c).userObjects = s.userObjects)) := by
  refine ⟨?_, ?_, ?_⟩
  · intro h
    exact leaveGroup_not_found s g c h
  · intro grp h hm hne
    have hmem_eq : grp.members.filter (fun id => id ≠ c) = grp.members :=
      filter_ne_of_not_mem _ _ hm
    have hkept := leaveGroup_kept s g c grp h (by rw [hmem_eq]; exact hne)
    rw [hkept]
    refine ⟨?_, rfl, rfl, ?_, ?_⟩
    · show mapSet s.groups g
        { grp with members := grp.members.filter (fun id => id ≠ c) } = s.groups
      rw [hmem_eq]
      exact mapSet_get_self s.groups g grp h
    · show mapGet (mapSet s.clientGroups c
        ((idxOf s c).filter (fun id => id ≠ g))) c = _
      rw [mapGet_mapSet, if_pos rfl]
    · intro c2 hne2
      show mapGet (mapSet s.clientGroups c
        ((idxOf s c).filter (fun id => id ≠ g))) c2 = _
      rw [mapGet_mapSet, if_neg (fun hx => hne2 hx.symm)]
  · intro grp h
    by_cases he : grp.members.filter (fun id => id ≠ c) = []
    · rw [leaveGroup_deleted s g c grp h he]
      refine ⟨?_, ?_, rfl, rfl⟩
      · show mapGet (mapDelete s.groups g) g = _
        rw [mapGet_mapDelete, if_pos rfl, if_pos he]
      · show mapGet (mapSet s.clientGroups c
          ((idxOf s c).filter (fun id => id ≠ g))) c = _
        rw [mapGet_mapSet, if_pos rfl]
    · rw [leaveGroup_kept s g c grp h he]
      refine ⟨?_, ?_, rfl, rfl⟩
      · show mapGet (mapSet s.groups g
          { grp with members := grp.members.filter (fun id => id ≠ c) }) g = _
        rw [mapGet_mapSet, if_pos rfl, if_neg he]
      · show mapGet (mapSet s.clientGroups c
          ((idxOf s c).filter (fun id => id ≠ g))) c = _
        rw [mapGet_mapSet, if_pos rfl]

/-- Witness for C8's amended theorem: the missing-group case, the non-member
observational no-op, a member's leave that empties and deletes the group, and
a non-member's leave on a stored empty-member group (which deletes it). -/
theorem leaveGroup_noop_tolerance_witness :
    leaveGroup initService "g9" "c1" = initService
    ∧ (leaveGroup (runOps initService
        [.addUser "c1" "a", .createGroup "g1" "T" "c1"]) "g1" "c2").groups
      = (runOps initService [.addUser "c1" "a", .createGroup "g1" "T" "c1"]).groups
    ∧ getGroup (leaveGroup (runOps initService
        [.addUser "c1" "a", .createGroup "g1" "T" "c1"]) "g1" "c1") "g1" = none
    ∧ getGroup (leaveGroup (runOps initService
        [.addUser "c1" "a", .createGroup "g1" "T" "c1", .removeUser "c1"])
        "g1" "c9") "g1" = none := by
  refine ⟨?_, ?_, ?_, ?_⟩
  · exact (leaveGroup_noop_tolerance initService "g9" "c1").1 rfl
  · exact ((leaveGroup_noop_tolerance (runOps initService
        [.addUser "c1" "a", .createGroup "g1" "T" "c1"]) "g1" "c2").2.1
      ⟨"g1", "T", "c1", ["c1"]⟩ (by decide) (by decide) (by decide)).1
  · have h := ((leaveGroup_noop_tolerance (runOps initService
        [.addUser "c1" "a", .createGroup "g1" "T" "c1"]) "g1" "c1").2.2
      ⟨"g1", "T", "c1", ["c1"]⟩ (by decide)).1
    rw [h]
    decide
  · have h := ((leaveGroup_noop_tolerance (runOps initService
        [.addUser "c1" "a", .createGroup "g1" "T" "c1", .removeUser "c1"])
        "g1" "c9").2.2 ⟨"g1", "T", "c1", []⟩ (by decide)).1
    rw [h]
    decide

/-- C9: `privateMessage` with an unregistered sender produces exactly one
requester-only "Sender not found" error delivery and no direct delivery; with
a registered sender and an unregistered recipient it produces exactly one
requester-only "Recipient not found" error delivery and no direct delivery;
in both cases the registry is unchanged. -/
theorem privateMessage_unregistered_errors (s : EventsService)
    (toId msg c ts : String) :
    (getUserObject s c = none →
      handlePrivateMessage s toId msg c ts
        = (s, [.requesterOnly "error" (.errorMsg "Sender not found")]))
    ∧ (∀ u, getUserObject s c = some u → getUserObject s toId = none →
      handlePrivateMessage s toId msg c ts
        = (s, [.requesterOnly "error" (.errorMsg "Recipient not found")])) := by
  constructor
  · intro h
    unfold handlePrivateMessage
    rw [h]
  · intro u hu hto
    unfold handlePrivateMessage
    rw [hu, hto]

/-- Witness for C9 at concrete registries. -/
theorem privateMessage_unregistered_errors_witness :
    handlePrivateMessage initService "c2" "hi" "c1" "t0"
      = (initService, [.requesterOnly "error" (.errorMsg "Sender not found")])
    ∧ handlePrivateMessage (addUser initService "c1" "alice") "c2" "hi" "c1" "t0"
      = (addUser initService "c1" "alice",
          [.requesterOnly "error" (.errorMsg "Recipient not found")]) :=
  ⟨(privateMessage_unregistered_errors initService "c2" "hi" "c1" "t0").1 rfl,
    (privateMessage_unregistered_errors _ "c2" "hi" "c1" "t0").2
      ⟨"c1", "alice"⟩ rfl rfl⟩

theorem getGroupMembers_eq (s : EventsService) (gid : String) (grp : ChatGroup)
    (h : mapGet s.groups gid = some grp) :
    getGroupMembers s gid
      = grp.members.filterMap (fun clientId => mapGet s.userObjects clientId) := by
  unfold getGroupMembers
  rw [h]

/-- C10: an unregistered connId can create a group (becoming its sole member)
or join an existing group, and is then silently skipped by
`getGroupMembers` because it has no stored `User`. -/
theorem unregistered_can_create_and_join (s : EventsService) (gid name c : String)
    (hc : getUserObject s c = none) :
    (mapGet s.groups gid = none →
      ∃ s2, createGroup s gid name c = .ok (s2, ⟨gid, name, c, [c]⟩)
        ∧ getGroupMembers s2 gid = [])
    ∧ (∀ grp, mapGet s.groups gid = some grp →
      ∃ s2 grp2, joinGroup s gid c = .ok (s2, grp2) ∧ c ∈ grp2.members
        ∧ getGroupMembers s2 gid
            = (grp2.members.filter (fun id => id ≠ c)).filterMap
                (fun clientId => mapGet s2.userObjects clientId)) := by
  have hc2 : mapGet s.userObjects c = none := hc
  constructor
  · intro hg
    refine ⟨_, createGroup_ok s gid name c hg, ?_⟩
    have hg2 : mapGet (mapSet s.groups gid ⟨gid, name, c, [c]⟩) gid
        = some (⟨gid, name, c, [c]⟩ : ChatGroup) := by
      rw [mapGet_mapSet, if_pos rfl]
    rw [getGroupMembers_eq _ gid _ hg2]
    show List.filterMap (fun clientId => mapGet s.userObjects clientId) [c] = []
    simp [List.filterMap_cons, hc2]
  · intro grp hg
    by_cases hmem : c ∈ grp.members
    · refine ⟨s, grp, joinGroup_already s gid c grp hg hmem, hmem, ?_⟩
      rw [getGroupMembers_eq s gid grp hg]
      exact filterMap_mapGet_skip s.userObjects c hc2 grp.members
    · have hg2 : mapGet (mapSet s.groups gid
          { grp with members := grp.members ++ [c] }) gid
        = some { grp with members := grp.members ++ [c] } := by
        rw [mapGet_mapSet, if_pos rfl]
      refine ⟨_, _, joinGroup_new s gid c grp hg hmem, ?_, ?_⟩
      · simp
      · rw [getGroupMembers_eq _ gid _ hg2]
        exact filterMap_mapGet_skip s.userObjects c hc2 (grp.members ++ [c])

/-- Witness for C10: an unregistered `c9` creates a fresh group and joins an
existing one. -/
theorem unregistered_can_create_and_join_witness :
    (∃ s2, createGroup initService "g1" "N" "c9" = .ok (s2, ⟨"g1", "N", "c9", ["c9"]⟩)
      ∧ getGroupMembers s2 "g1" = [])
    ∧ (∃ s2 grp2, joinGroup (runOps initService
          [.addUser "c1" "a", .createGroup "g1" "T" "c1"]) "g1" "c9"
        = .ok (s2, grp2) ∧ "c9" ∈ grp2.members
        ∧ getGroupMembers s2 "g1"
            = (grp2.members.filter (fun id => id ≠ "c9")).filterMap
                (fun clientId => mapGet s2.userObjects clientId)) :=
  ⟨(unregistered_can_create_and_join initService "g1" "N" "c9" rfl).1 rfl,
    (unregistered_can_create_and_join (runOps initService
        [.addUser "c1" "a", .createGroup "g1" "T" "c1"]) "g1" "N" "c9" (by decide)).2
      ⟨"g1", "T", "c1", ["c1"]⟩ (by decide)⟩

end ChatApp
